import Mathlib

/-!
Shallow embedding of the Redux state slices of the
infrastructure-alert-dashboard frontend
(src/frontend/src/features/infrastructure/infrastructureSlice.ts,
src/frontend/src/features/predictions/predictionsSlice.ts,
src/frontend/src/features/ui/uiSlice.ts) and of the calendar-data
preparation in src/frontend/src/pages/Analysis/index.tsx.

A Redux `Record<string, T>` is modelled as an association list in key
insertion order; `state.components[id]` reads become `findComp`,
in-place mutation of the found record becomes `modifyComp`, and
`delete state.components[id]` becomes `eraseComp`.  Wall-clock values
(`new Date().toISOString()`, generated notification ids) are passed in
as explicit parameters, since the reducers treat them as opaque strings.
-/

namespace InfraDash

/-- ComponentStatus enum of theme.ts. -/
inductive ComponentStatus where
  | healthy
  | degraded
  | warning
  | critical
  | unknown
  | maintenance
deriving DecidableEq, Repr

/-- ComponentType enum of theme.ts. -/
inductive ComponentType where
  | server
  | database
  | network
  | storage
  | application
  | service
  | container
  | load_balancer
  | cache
  | queue
deriving DecidableEq, Repr

/-- InfrastructureComponent interface of theme.ts.  `metadata` values are
typed `any` in the source; the claims never inspect them, so string values
suffice to track the field across operations. -/
structure InfrastructureComponent where
  component_id : String
  name : String
  component_type : ComponentType
  status : ComponentStatus
  metadata : List (String × String)
  dependencies : List String
  dependents : List String
  location : Option String
  owner : Option String
  created_at : String
  updated_at : String
  active_alerts : List String
deriving DecidableEq, Repr

/-- The `components : Record<string, InfrastructureComponent>` field of
InfrastructureState, as an association list in insertion order. -/
abbrev Store := List (String × InfrastructureComponent)

/-- `state.components[id]`: first entry with the given key. -/
def findComp (s : Store) (id : String) : Option InfrastructureComponent :=
  match s with
  | [] => none
  | (k, c) :: rest => if k = id then some c else findComp rest id

/-- In-place mutation of the record stored under `id`. -/
def modifyComp (s : Store) (id : String) (f : InfrastructureComponent → InfrastructureComponent) : Store :=
  match s with
  | [] => []
  | (k, c) :: rest =>
    if k = id then (k, f c) :: modifyComp rest id f
    else (k, c) :: modifyComp rest id f

/-- `delete state.components[id]`. -/
def eraseComp (s : Store) (id : String) : Store :=
  s.filter (fun p => p.1 ≠ id)

/-- The identifiers present in the store. -/
def storeKeys (s : Store) : List String :=
  s.map Prod.fst

/-- Truthiness of `state.components[id]`. -/
def present (s : Store) (id : String) : Bool :=
  (findComp s id).isSome

/-- `state.components[a].dependencies.includes(b)` (false when `a` is absent). -/
def hasDep (s : Store) (a b : String) : Bool :=
  match findComp s a with
  | some c => decide (b ∈ c.dependencies)
  | none => false

/-- `state.components[a].dependents.includes(b)` (false when `a` is absent). -/
def hasDept (s : Store) (a b : String) : Bool :=
  match findComp s a with
  | some c => decide (b ∈ c.dependents)
  | none => false

/-!  ## Reducers of infrastructureSlice.ts  -/

/-- infrastructureSlice.updateComponentStatus (lines 38-44). -/
def updateComponentStatus (now : String) (componentId : String) (status : ComponentStatus) (s : Store) : Store :=
  match findComp s componentId with
  | some _ => modifyComp s componentId (fun c => { c with status := status, updated_at := now })
  | none => s

/-- infrastructureSlice.deleteComponent (lines 63-68), restricted to the
`components` record (the reducer also clears `selectedComponent`, which no
claim mentions). -/
def deleteComponent (componentId : String) (s : Store) : Store :=
  eraseComp s componentId

/-- First half of addComponentRelationship (lines 72-76): add
`dependencyId` to the dependencies of the dependent when the dependent exists
and does not already list it. -/
def addDependencySide (now dependentId dependencyId : String) (s : Store) : Store :=
  match findComp s dependentId with
  | some c =>
    if dependencyId ∈ c.dependencies then s
    else modifyComp s dependentId
      (fun c => { c with dependencies := c.dependencies ++ [dependencyId], updated_at := now })
  | none => s

/-- Second half of addComponentRelationship (lines 78-82): add
`dependentId` to the dependents of the dependency when the dependency exists
and does not already list it. -/
def addDependentSide (now dependentId dependencyId : String) (s : Store) : Store :=
  match findComp s dependencyId with
  | some c =>
    if dependentId ∈ c.dependents then s
    else modifyComp s dependencyId
      (fun c => { c with dependents := c.dependents ++ [dependentId], updated_at := now })
  | none => s

/-- infrastructureSlice.addComponentRelationship (lines 69-83): the two
guarded pushes run in sequence. -/
def addComponentRelationship (now dependentId dependencyId : String) (s : Store) : Store :=
  addDependentSide now dependentId dependencyId
    (addDependencySide now dependentId dependencyId s)

/-- First half of removeComponentRelationship (lines 87-93). -/
def removeDependencySide (now dependentId dependencyId : String) (s : Store) : Store :=
  match findComp s dependentId with
  | some _ => modifyComp s dependentId
      (fun c =>
        { c with dependencies := c.dependencies.filter (fun id => id ≠ dependencyId), updated_at := now })
  | none => s

/-- Second half of removeComponentRelationship (lines 95-101). -/
def removeDependentSide (now dependentId dependencyId : String) (s : Store) : Store :=
  match findComp s dependencyId with
  | some _ => modifyComp s dependencyId
      (fun c =>
        { c with dependents := c.dependents.filter (fun id => id ≠ dependentId), updated_at := now })
  | none => s

/-- infrastructureSlice.removeComponentRelationship (lines 84-102). -/
def removeComponentRelationship (now dependentId dependencyId : String) (s : Store) : Store :=
  removeDependentSide now dependentId dependencyId
    (removeDependencySide now dependentId dependencyId s)

/-- infrastructureSlice.addAlertToComponent (lines 103-109). -/
def addAlertToComponent (now componentId alertId : String) (s : Store) : Store :=
  match findComp s componentId with
  | some c =>
    if alertId ∈ c.active_alerts then s
    else modifyComp s componentId
      (fun c => { c with active_alerts := c.active_alerts ++ [alertId], updated_at := now })
  | none => s

/-- infrastructureSlice.removeAlertFromComponent (lines 110-118). -/
def removeAlertFromComponent (now componentId alertId : String) (s : Store) : Store :=
  match findComp s componentId with
  | some _ => modifyComp s componentId
      (fun c =>
        { c with active_alerts := c.active_alerts.filter (fun id => id ≠ alertId), updated_at := now })
  | none => s

/-!  ## Edge-mutation operation sequences  -/

/-- One invocation of either relationship reducer, with its payload and the
wall-clock string the reducer would read. -/
inductive EdgeOp where
  | addRel (now dependentId dependencyId : String)
  | removeRel (now dependentId dependencyId : String)
deriving DecidableEq, Repr

/-- Dispatch one edge operation. -/
def applyEdgeOp (s : Store) : EdgeOp → Store
  | EdgeOp.addRel now dep dcy => addComponentRelationship now dep dcy s
  | EdgeOp.removeRel now dep dcy => removeComponentRelationship now dep dcy s

/-- Apply a sequence of relationship operations in order. -/
def applyEdgeOps (s : Store) (ops : List EdgeOp) : Store :=
  ops.foldl applyEdgeOp s

/-- Spec §3 invariant over the components present in the store: for every
pair (A, B) of present components, B ∈ A.dependencies ⇔ A ∈ B.dependents. -/
def EdgeSymmetric (s : Store) : Prop :=
  ∀ a ∈ storeKeys s, ∀ b ∈ storeKeys s, (hasDep s a b = true ↔ hasDept s b a = true)

instance decEdgeSymmetric (s : Store) : Decidable (EdgeSymmetric s) :=
  inferInstanceAs (Decidable
    (∀ a ∈ storeKeys s, ∀ b ∈ storeKeys s, (hasDep s a b = true ↔ hasDept s b a = true)))

/-- Component literal for concrete stores; field values beyond the edge and
alert sets are fixed placeholders. -/
def mkComp (id : String) (deps depts alerts : List String) : InfrastructureComponent :=
  { component_id := id, name := id, component_type := ComponentType.server,
    status := ComponentStatus.healthy, metadata := [], dependencies := deps,
    dependents := depts, location := none, owner := none, created_at := "t0",
    updated_at := "t0", active_alerts := alerts }

/-- The number of occurrences of `alertId` in the active-alert
list of `componentId` (0 when the component is absent). -/
def activeAlertCount (s : Store) (componentId alertId : String) : Nat :=
  match findComp s componentId with
  | some c => c.active_alerts.count alertId
  | none => 0

/-!  ## Alert model (theme.ts) and alertsSlice.ts reducer  -/

/-- AlertSeverity enum of theme.ts. -/
inductive AlertSeverity where
  | critical
  | high
  | medium
  | low
  | info
deriving DecidableEq, Repr

/-- AlertStatus enum of theme.ts. -/
inductive AlertStatus where
  | new
  | acknowledged
  | in_progress
  | resolved
  | closed
deriving DecidableEq, Repr

/-- AlertUpdate interface of theme.ts.  `old_value`/`new_value` are typed
`any` in the source; the claims only count and compare entries, so string
values suffice. -/
structure AlertUpdate where
  timestamp : String
  field : String
  old_value : String
  new_value : String
  updated_by : String
  notes : Option String
deriving DecidableEq, Repr

/-- Alert interface of theme.ts.  The optional `update_history` array is
modelled as a plain list, with `[]` for an absent history. -/
structure Alert where
  alert_id : String
  timestamp : String
  source_component : String
  alert_type : String
  severity : AlertSeverity
  description : String
  status : AlertStatus
  affected_components : List String
  metadata : List (String × String)
  assigned_to : Option String
  resolution_time : Option String
  resolution_notes : Option String
  update_history : List AlertUpdate
deriving DecidableEq, Repr

/-- JavaScript truthiness of an optional string field: `undefined` and the
empty string are falsy. -/
def strTruthy : Option String → Bool
  | none => false
  | some t => !(t == "")

/-- The in-place mutation that alertsSlice.updateAlertStatus (lines 115-130)
performs on the found alert: overwrite `status`, copy truthy `notes` into
`resolution_notes`, and stamp `resolution_time` on a transition to resolved
when it is not already (truthily) set. -/
def applyAlertStatusUpdate (status : AlertStatus) (notes : Option String) (now : String) (a : Alert) : Alert :=
  let a1 := { a with status := status }
  let a2 := match notes with
    | some n => if n = "" then a1 else { a1 with resolution_notes := some n }
    | none => a1
  if status = AlertStatus.resolved ∧ strTruthy a2.resolution_time = false then
    { a2 with resolution_time := some now }
  else a2

/-- `state.alerts.find(a => a.alert_id === alertId)`. -/
def findAlert (alerts : List Alert) (alertId : String) : Option Alert :=
  match alerts with
  | [] => none
  | a :: rest => if a.alert_id = alertId then some a else findAlert rest alertId

/-- Mutate the first alert with the given id in place (the JS `find` returns
a live reference into the array). -/
def updateFirstAlert (alerts : List Alert) (alertId : String) (f : Alert → Alert) : List Alert :=
  match alerts with
  | [] => []
  | a :: rest =>
    if a.alert_id = alertId then f a :: rest
    else a :: updateFirstAlert rest alertId f

/-- alertsSlice.updateAlertStatus (lines 115-130), restricted to the
`alerts` array (the reducer also refreshes `selectedAlert`, which no claim
mentions). -/
def updateAlertStatus (alertId : String) (status : AlertStatus) (notes : Option String) (now : String) (alerts : List Alert) : List Alert :=
  updateFirstAlert alerts alertId (applyAlertStatusUpdate status notes now)

/-- One invocation of updateAlertStatus with its payload and wall clock. -/
structure AlertStatusOp where
  alertId : String
  status : AlertStatus
  notes : Option String
  now : String
deriving DecidableEq, Repr

/-- Apply a sequence of updateAlertStatus invocations in order. -/
def applyAlertStatusOps (alerts : List Alert) (ops : List AlertStatusOp) : List Alert :=
  ops.foldl (fun l op => updateAlertStatus op.alertId op.status op.notes op.now l) alerts

/-- Alert literal for concrete stores; fields beyond the id, status,
resolution fields and history are fixed placeholders. -/
def mkAlert (id : String) (st : AlertStatus) (rt : Option String) (hist : List AlertUpdate) : Alert :=
  { alert_id := id, timestamp := "t0", source_component := "A",
    alert_type := "cpu", severity := AlertSeverity.high, description := "d",
    status := st, affected_components := [], metadata := [],
    assigned_to := none, resolution_time := rt, resolution_notes := none,
    update_history := hist }

/-!  ## Notification model (theme.ts) and uiSlice.ts addNotification  -/

/-- Notification interface of theme.ts (`type` is one of the four literal
strings in the source). -/
structure Notification where
  id : String
  message : String
  type : String
  timestamp : String
  read : Bool
deriving DecidableEq, Repr

/-- The reducer payload: Notification minus the id, timestamp and read fields. -/
structure NotificationPayload where
  message : String
  type : String
deriving DecidableEq, Repr

/-- uiSlice.addNotification (lines 31-44): unshift a new unread
notification (generated id and wall clock passed in), then cap at 50. -/
def addNotification (payload : NotificationPayload) (id timestamp : String) (notifications : List Notification) : List Notification :=
  let ns := { id := id, message := payload.message, type := payload.type,
              timestamp := timestamp, read := false } :: notifications
  if ns.length > 50 then ns.take 50 else ns

/-- One invocation of addNotification with its payload, generated id and
wall clock. -/
structure NotificationOp where
  payload : NotificationPayload
  id : String
  timestamp : String
deriving DecidableEq, Repr

/-- Apply a sequence of addNotification invocations in order. -/
def applyNotificationOps (ops : List NotificationOp) (notifications : List Notification) : List Notification :=
  ops.foldl (fun l op => addNotification op.payload op.id op.timestamp l) notifications

/-!  ## Calendar-data preparation (pages/Analysis/index.tsx, lines 1164-1182)  -/

/-- OptimalWindow interface of theme.ts. -/
structure OptimalWindow where
  time : String
  risk_level : String
deriving DecidableEq, Repr

/-- OptimalWindows: `{ [day: string]: OptimalWindow[] }`, as an association
list. -/
abbrev OptimalWindows := List (String × List OptimalWindow)

/-- `optimalWindows[day]`. -/
def lookupWindows (ow : OptimalWindows) (day : String) : Option (List OptimalWindow) :=
  match ow with
  | [] => none
  | (k, slots) :: rest => if k = day then some slots else lookupWindows rest day

/-- `optimalWindows[day]?.find(s => s.time === time)`. -/
def slotLookup (ow : OptimalWindows) (day time : String) : Option OptimalWindow :=
  match lookupWindows ow day with
  | some slots => slots.find? (fun s => s.time == time)
  | none => none

/-- The `value` computed for one calendar cell: 0.3/0.6/0.9 for a found
low/medium/other slot, 0.5 for a missing slot.  JS numbers are modelled as
rationals; the four literals are exact. -/
def cellValue (ow : OptimalWindows) (day time : String) : ℚ :=
  match slotLookup ow day time with
  | some slot =>
    if slot.risk_level = "low" then 3/10
    else if slot.risk_level = "medium" then 6/10
    else 9/10
  | none => 1/2

/-- The `days` array of prepareCalendarData. -/
def calendarDays : List String :=
  ["Monday", "Tuesday", "Wednesday", "Thursday", "Friday", "Saturday", "Sunday"]

/-- The `timeSlots` array of prepareCalendarData. -/
def calendarTimeSlots : List String :=
  ["10:00-12:00", "14:00-16:00"]

/-- One entry of the prepared calendar data. -/
structure CalendarCell where
  day : String
  time : String
  value : ℚ
deriving DecidableEq, Repr

/-- prepareCalendarData (Analysis/index.tsx lines 1164-1182): one cell per
(day, timeSlot) pair; `[]` when `optimalWindows` is null. -/
def prepareCalendarData (optimalWindows : Option OptimalWindows) : List CalendarCell :=
  match optimalWindows with
  | none => []
  | some ow =>
    calendarDays.flatMap (fun day =>
      calendarTimeSlots.map (fun time =>
        { day := day, time := time, value := cellValue ow day time }))

/-!  ## Basic lemmas about the store  -/

theorem findComp_modifyComp_self (s : Store) (id : String) (f : InfrastructureComponent → InfrastructureComponent) :
    findComp (modifyComp s id f) id = (findComp s id).map f := by
  induction s with
  | nil => rfl
  | cons p rest ih =>
    obtain ⟨k, c⟩ := p
    by_cases hk : k = id
    · simp only [modifyComp]
      rw [if_pos hk]
      simp only [findComp]
      rw [if_pos hk, if_pos hk]
      rfl
    · simp only [modifyComp]
      rw [if_neg hk]
      simp only [findComp]
      rw [if_neg hk, if_neg hk]
      exact ih

theorem findComp_modifyComp_ne (s : Store) (id a : String) (f : InfrastructureComponent → InfrastructureComponent)
    (h : a ≠ id) : findComp (modifyComp s id f) a = findComp s a := by
  induction s with
  | nil => rfl
  | cons p rest ih =>
    obtain ⟨k, c⟩ := p
    by_cases hk : k = id
    · simp only [modifyComp]
      rw [if_pos hk]
      simp only [findComp]
      have hka : ¬ k = a := fun hh => h (hh ▸ hk)
      rw [if_neg hka, if_neg hka]
      exact ih
    · simp only [modifyComp]
      rw [if_neg hk]
      simp only [findComp]
      by_cases hka : k = a
      · rw [if_pos hka, if_pos hka]
      · rw [if_neg hka, if_neg hka]
        exact ih

theorem storeKeys_modifyComp (s : Store) (id : String) (f : InfrastructureComponent → InfrastructureComponent) :
    storeKeys (modifyComp s id f) = storeKeys s := by
  induction s with
  | nil => rfl
  | cons p rest ih =>
    obtain ⟨k, c⟩ := p
    by_cases hk : k = id
    · simp only [modifyComp]
      rw [if_pos hk]
      simp only [storeKeys, List.map_cons]
      exact congrArg (List.cons k) ih
    · simp only [modifyComp]
      rw [if_neg hk]
      simp only [storeKeys, List.map_cons]
      exact congrArg (List.cons k) ih

theorem present_iff_mem_storeKeys (s : Store) (id : String) :
    present s id = true ↔ id ∈ storeKeys s := by
  induction s with
  | nil => simp [present, findComp, storeKeys]
  | cons p rest ih =>
    obtain ⟨k, c⟩ := p
    by_cases hk : k = id
    · subst hk
      simp [present, findComp, storeKeys]
    · simp only [present, findComp, storeKeys, List.map_cons, List.mem_cons]
      rw [if_neg hk]
      rw [show (List.map Prod.fst rest) = storeKeys rest from rfl]
      constructor
      · intro h
        exact Or.inr (ih.mp h)
      · rintro (h | h)
        · exact absurd h.symm hk
        · exact ih.mpr h

theorem present_modifyComp (s : Store) (id a : String) (f : InfrastructureComponent → InfrastructureComponent) :
    present (modifyComp s id f) a = present s a := by
  by_cases h : a = id
  · subst h
    simp [present, findComp_modifyComp_self]
  · simp [present, findComp_modifyComp_ne s id a f h]

/-!  ## findComp-level characterizations of the relationship reducers  -/

theorem findComp_addDependencySide_self (now dep dcy : String) (s : Store) :
    findComp (addDependencySide now dep dcy s) dep =
      (findComp s dep).map (fun c =>
        if dcy ∈ c.dependencies then c
        else { c with dependencies := c.dependencies ++ [dcy], updated_at := now }) := by
  unfold addDependencySide
  cases hf : findComp s dep with
  | none => simp [hf]
  | some c =>
    dsimp only
    by_cases hmem : dcy ∈ c.dependencies
    · rw [if_pos hmem, hf]
      simp [hmem]
    · rw [if_neg hmem, findComp_modifyComp_self, hf]
      simp [hmem]

theorem findComp_addDependencySide_ne (now dep dcy a : String) (s : Store) (h : a ≠ dep) :
    findComp (addDependencySide now dep dcy s) a = findComp s a := by
  unfold addDependencySide
  cases hf : findComp s dep with
  | none => rfl
  | some c =>
    dsimp only
    by_cases hmem : dcy ∈ c.dependencies
    · rw [if_pos hmem]
    · rw [if_neg hmem, findComp_modifyComp_ne _ _ _ _ h]

theorem findComp_addDependentSide_self (now dep dcy : String) (s : Store) :
    findComp (addDependentSide now dep dcy s) dcy =
      (findComp s dcy).map (fun c =>
        if dep ∈ c.dependents then c
        else { c with dependents := c.dependents ++ [dep], updated_at := now }) := by
  unfold addDependentSide
  cases hf : findComp s dcy with
  | none => simp [hf]
  | some c =>
    dsimp only
    by_cases hmem : dep ∈ c.dependents
    · rw [if_pos hmem, hf]
      simp [hmem]
    · rw [if_neg hmem, findComp_modifyComp_self, hf]
      simp [hmem]

theorem findComp_addDependentSide_ne (now dep dcy a : String) (s : Store) (h : a ≠ dcy) :
    findComp (addDependentSide now dep dcy s) a = findComp s a := by
  unfold addDependentSide
  cases hf : findComp s dcy with
  | none => rfl
  | some c =>
    dsimp only
    by_cases hmem : dep ∈ c.dependents
    · rw [if_pos hmem]
    · rw [if_neg hmem, findComp_modifyComp_ne _ _ _ _ h]

theorem findComp_removeDependencySide_self (now dep dcy : String) (s : Store) :
    findComp (removeDependencySide now dep dcy s) dep =
      (findComp s dep).map (fun c =>
        { c with dependencies := c.dependencies.filter (fun id => id ≠ dcy), updated_at := now }) := by
  unfold removeDependencySide
  cases hf : findComp s dep with
  | none => simp [hf]
  | some c =>
    dsimp only
    rw [findComp_modifyComp_self, hf]

theorem findComp_removeDependencySide_ne (now dep dcy a : String) (s : Store) (h : a ≠ dep) :
    findComp (removeDependencySide now dep dcy s) a = findComp s a := by
  unfold removeDependencySide
  cases hf : findComp s dep with
  | none => rfl
  | some c =>
    dsimp only
    rw [findComp_modifyComp_ne _ _ _ _ h]

theorem findComp_removeDependentSide_self (now dep dcy : String) (s : Store) :
    findComp (removeDependentSide now dep dcy s) dcy =
      (findComp s dcy).map (fun c =>
        { c with dependents := c.dependents.filter (fun id => id ≠ dep), updated_at := now }) := by
  unfold removeDependentSide
  cases hf : findComp s dcy with
  | none => simp [hf]
  | some c =>
    dsimp only
    rw [findComp_modifyComp_self, hf]

theorem findComp_removeDependentSide_ne (now dep dcy a : String) (s : Store) (h : a ≠ dcy) :
    findComp (removeDependentSide now dep dcy s) a = findComp s a := by
  unfold removeDependentSide
  cases hf : findComp s dcy with
  | none => rfl
  | some c =>
    dsimp only
    rw [findComp_modifyComp_ne _ _ _ _ h]

/-!  ## hasDep / hasDept across the relationship reducers  -/

theorem hasDep_addDependentSide (now dep dcy a b : String) (s : Store) :
    hasDep (addDependentSide now dep dcy s) a b = hasDep s a b := by
  unfold hasDep
  by_cases ha : a = dcy
  · subst ha
    rw [findComp_addDependentSide_self]
    cases hf : findComp s a with
    | none => rfl
    | some c =>
      dsimp only [Option.map]
      by_cases hmem : dep ∈ c.dependents
      · rw [if_pos hmem]
      · rw [if_neg hmem]
  · rw [findComp_addDependentSide_ne _ _ _ _ _ ha]

theorem hasDep_addDependencySide (now dep dcy a b : String) (s : Store) :
    hasDep (addDependencySide now dep dcy s) a b = true ↔
      (hasDep s a b = true ∨ (a = dep ∧ b = dcy ∧ present s dep = true)) := by
  by_cases ha : a = dep
  · subst ha
    unfold hasDep
    rw [findComp_addDependencySide_self]
    cases hf : findComp s a with
    | none => simp [present, hf]
    | some c =>
      dsimp only [Option.map]
      have hp : present s a = true := by simp [present, hf]
      by_cases hmem : dcy ∈ c.dependencies
      · rw [if_pos hmem]
        simp only [hp, and_true, decide_eq_true_eq, eq_self_iff_true, true_and]
        constructor
        · exact Or.inl
        · rintro (h | h)
          · exact h
          · exact h ▸ hmem
      · rw [if_neg hmem]
        simp only [hp, and_true, decide_eq_true_eq, eq_self_iff_true, true_and, List.mem_append,
          List.mem_singleton]
  · rw [show hasDep (addDependencySide now dep dcy s) a b = hasDep s a b from by
      unfold hasDep; rw [findComp_addDependencySide_ne _ _ _ _ _ ha]]
    simp [ha]

theorem hasDept_addDependencySide (now dep dcy a b : String) (s : Store) :
    hasDept (addDependencySide now dep dcy s) a b = hasDept s a b := by
  unfold hasDept
  by_cases ha : a = dep
  · subst ha
    rw [findComp_addDependencySide_self]
    cases hf : findComp s a with
    | none => rfl
    | some c =>
      dsimp only [Option.map]
      by_cases hmem : dcy ∈ c.dependencies
      · rw [if_pos hmem]
      · rw [if_neg hmem]
  · rw [findComp_addDependencySide_ne _ _ _ _ _ ha]

theorem hasDept_addDependentSide (now dep dcy a b : String) (s : Store) :
    hasDept (addDependentSide now dep dcy s) a b = true ↔
      (hasDept s a b = true ∨ (a = dcy ∧ b = dep ∧ present s dcy = true)) := by
  by_cases ha : a = dcy
  · subst ha
    unfold hasDept
    rw [findComp_addDependentSide_self]
    cases hf : findComp s a with
    | none => simp [present, hf]
    | some c =>
      dsimp only [Option.map]
      have hp : present s a = true := by simp [present, hf]
      by_cases hmem : dep ∈ c.dependents
      · rw [if_pos hmem]
        simp only [hp, and_true, decide_eq_true_eq, eq_self_iff_true, true_and]
        constructor
        · exact Or.inl
        · rintro (h | h)
          · exact h
          · exact h ▸ hmem
      · rw [if_neg hmem]
        simp only [hp, and_true, decide_eq_true_eq, eq_self_iff_true, true_and, List.mem_append,
          List.mem_singleton]
  · rw [show hasDept (addDependentSide now dep dcy s) a b = hasDept s a b from by
      unfold hasDept; rw [findComp_addDependentSide_ne _ _ _ _ _ ha]]
    simp [ha]

theorem hasDept_removeDependencySide (now dep dcy a b : String) (s : Store) :
    hasDept (removeDependencySide now dep dcy s) a b = hasDept s a b := by
  unfold hasDept
  by_cases ha : a = dep
  · subst ha
    rw [findComp_removeDependencySide_self]
    cases hf : findComp s a with
    | none => rfl
    | some c => rfl
  · rw [findComp_removeDependencySide_ne _ _ _ _ _ ha]

theorem hasDep_removeDependentSide (now dep dcy a b : String) (s : Store) :
    hasDep (removeDependentSide now dep dcy s) a b = hasDep s a b := by
  unfold hasDep
  by_cases ha : a = dcy
  · subst ha
    rw [findComp_removeDependentSide_self]
    cases hf : findComp s a with
    | none => rfl
    | some c => rfl
  · rw [findComp_removeDependentSide_ne _ _ _ _ _ ha]

theorem hasDep_removeDependencySide (now dep dcy a b : String) (s : Store) :
    hasDep (removeDependencySide now dep dcy s) a b = true ↔
      (hasDep s a b = true ∧ ¬(a = dep ∧ b = dcy)) := by
  by_cases ha : a = dep
  · subst ha
    unfold hasDep
    rw [findComp_removeDependencySide_self]
    cases hf : findComp s a with
    | none => simp
    | some c =>
      dsimp only [Option.map]
      simp [List.mem_filter]
  · rw [show hasDep (removeDependencySide now dep dcy s) a b = hasDep s a b from by
      unfold hasDep; rw [findComp_removeDependencySide_ne _ _ _ _ _ ha]]
    simp [ha]

theorem hasDept_removeDependentSide (now dep dcy a b : String) (s : Store) :
    hasDept (removeDependentSide now dep dcy s) a b = true ↔
      (hasDept s a b = true ∧ ¬(a = dcy ∧ b = dep)) := by
  by_cases ha : a = dcy
  · subst ha
    unfold hasDept
    rw [findComp_removeDependentSide_self]
    cases hf : findComp s a with
    | none => simp
    | some c =>
      dsimp only [Option.map]
      simp [List.mem_filter]
  · rw [show hasDept (removeDependentSide now dep dcy s) a b = hasDept s a b from by
      unfold hasDept; rw [findComp_removeDependentSide_ne _ _ _ _ _ ha]]
    simp [ha]

/-!  ## present across the relationship reducers  -/

theorem present_addDependencySide (now dep dcy x : String) (s : Store) :
    present (addDependencySide now dep dcy s) x = present s x := by
  by_cases hx : x = dep
  · subst hx
    unfold present
    rw [findComp_addDependencySide_self]
    cases hf : findComp s x <;> rfl
  · unfold present
    rw [findComp_addDependencySide_ne _ _ _ _ _ hx]

theorem present_addDependentSide (now dep dcy x : String) (s : Store) :
    present (addDependentSide now dep dcy s) x = present s x := by
  by_cases hx : x = dcy
  · subst hx
    unfold present
    rw [findComp_addDependentSide_self]
    cases hf : findComp s x <;> rfl
  · unfold present
    rw [findComp_addDependentSide_ne _ _ _ _ _ hx]

theorem present_removeDependencySide (now dep dcy x : String) (s : Store) :
    present (removeDependencySide now dep dcy s) x = present s x := by
  by_cases hx : x = dep
  · subst hx
    unfold present
    rw [findComp_removeDependencySide_self]
    cases hf : findComp s x <;> rfl
  · unfold present
    rw [findComp_removeDependencySide_ne _ _ _ _ _ hx]

theorem present_removeDependentSide (now dep dcy x : String) (s : Store) :
    present (removeDependentSide now dep dcy s) x = present s x := by
  by_cases hx : x = dcy
  · subst hx
    unfold present
    rw [findComp_removeDependentSide_self]
    cases hf : findComp s x <;> rfl
  · unfold present
    rw [findComp_removeDependentSide_ne _ _ _ _ _ hx]

/-!  ## Characterization of the full relationship reducers  -/

theorem present_addComponentRelationship (now dep dcy x : String) (s : Store) :
    present (addComponentRelationship now dep dcy s) x = present s x := by
  unfold addComponentRelationship
  rw [present_addDependentSide, present_addDependencySide]

theorem present_removeComponentRelationship (now dep dcy x : String) (s : Store) :
    present (removeComponentRelationship now dep dcy s) x = present s x := by
  unfold removeComponentRelationship
  rw [present_removeDependentSide, present_removeDependencySide]

theorem hasDep_addComponentRelationship (now dep dcy a b : String) (s : Store) :
    hasDep (addComponentRelationship now dep dcy s) a b = true ↔
      (hasDep s a b = true ∨ (a = dep ∧ b = dcy ∧ present s dep = true)) := by
  unfold addComponentRelationship
  rw [hasDep_addDependentSide, hasDep_addDependencySide]

theorem hasDept_addComponentRelationship (now dep dcy a b : String) (s : Store) :
    hasDept (addComponentRelationship now dep dcy s) a b = true ↔
      (hasDept s a b = true ∨ (a = dcy ∧ b = dep ∧ present s dcy = true)) := by
  unfold addComponentRelationship
  rw [hasDept_addDependentSide, hasDept_addDependencySide, present_addDependencySide]

theorem hasDep_removeComponentRelationship (now dep dcy a b : String) (s : Store) :
    hasDep (removeComponentRelationship now dep dcy s) a b = true ↔
      (hasDep s a b = true ∧ ¬(a = dep ∧ b = dcy)) := by
  unfold removeComponentRelationship
  rw [hasDep_removeDependentSide, hasDep_removeDependencySide]

theorem hasDept_removeComponentRelationship (now dep dcy a b : String) (s : Store) :
    hasDept (removeComponentRelationship now dep dcy s) a b = true ↔
      (hasDept s a b = true ∧ ¬(a = dcy ∧ b = dep)) := by
  unfold removeComponentRelationship
  rw [hasDept_removeDependentSide, hasDept_removeDependencySide]

/-!  ## Edge symmetry preservation  -/

theorem mem_storeKeys_of_op (now dep dcy a : String) (s : Store)
    (hpres : ∀ x, present (addComponentRelationship now dep dcy s) x = present s x)
    (ha : a ∈ storeKeys (addComponentRelationship now dep dcy s)) : a ∈ storeKeys s := by
  rw [← present_iff_mem_storeKeys, ← hpres a, present_iff_mem_storeKeys]
  exact ha

theorem edgeSymmetric_addComponentRelationship (now dep dcy : String) (s : Store)
    (h : EdgeSymmetric s) : EdgeSymmetric (addComponentRelationship now dep dcy s) := by
  intro a ha b hb
  have ha' : a ∈ storeKeys s :=
    mem_storeKeys_of_op now dep dcy a s (fun x => present_addComponentRelationship now dep dcy x s) ha
  have hb' : b ∈ storeKeys s :=
    mem_storeKeys_of_op now dep dcy b s (fun x => present_addComponentRelationship now dep dcy x s) hb
  have hpa : present s a = true := (present_iff_mem_storeKeys s a).mpr ha'
  have hpb : present s b = true := (present_iff_mem_storeKeys s b).mpr hb'
  have hsym := h a ha' b hb'
  rw [hasDep_addComponentRelationship, hasDept_addComponentRelationship]
  constructor
  · rintro (h1 | ⟨rfl, rfl, hp⟩)
    · exact Or.inl (hsym.mp h1)
    · exact Or.inr ⟨rfl, rfl, hpb⟩
  · rintro (h1 | ⟨rfl, rfl, hp⟩)
    · exact Or.inl (hsym.mpr h1)
    · exact Or.inr ⟨rfl, rfl, hpa⟩

theorem edgeSymmetric_removeComponentRelationship (now dep dcy : String) (s : Store)
    (h : EdgeSymmetric s) : EdgeSymmetric (removeComponentRelationship now dep dcy s) := by
  intro a ha b hb
  have ha' : a ∈ storeKeys s := by
    rw [← present_iff_mem_storeKeys, ← present_removeComponentRelationship now dep dcy a s,
      present_iff_mem_storeKeys]
    exact ha
  have hb' : b ∈ storeKeys s := by
    rw [← present_iff_mem_storeKeys, ← present_removeComponentRelationship now dep dcy b s,
      present_iff_mem_storeKeys]
    exact hb
  have hsym := h a ha' b hb'
  rw [hasDep_removeComponentRelationship, hasDept_removeComponentRelationship]
  constructor
  · rintro ⟨h1, h2⟩
    exact ⟨hsym.mp h1, fun hc => h2 ⟨hc.2, hc.1⟩⟩
  · rintro ⟨h1, h2⟩
    exact ⟨hsym.mpr h1, fun hc => h2 ⟨hc.2, hc.1⟩⟩

theorem edgeSymmetric_applyEdgeOp (s : Store) (op : EdgeOp) (h : EdgeSymmetric s) :
    EdgeSymmetric (applyEdgeOp s op) := by
  cases op with
  | addRel now dep dcy => exact edgeSymmetric_addComponentRelationship now dep dcy s h
  | removeRel now dep dcy => exact edgeSymmetric_removeComponentRelationship now dep dcy s h

/-- C1: Edge-symmetry invariant.  If a component store satisfies, for every
pair of present components (A, B), B ∈ A.dependencies ⇔ A ∈ B.dependents,
then after any sequence of addComponentRelationship and
removeComponentRelationship operations — with arbitrary
dependentId/dependencyId arguments, including identifiers absent from the
store — the equivalence still holds for every pair of components present in
the store. -/
theorem edge_symmetry_invariant (s : Store) (ops : List EdgeOp) (h : EdgeSymmetric s) :
    EdgeSymmetric (applyEdgeOps s ops) := by
  induction ops generalizing s with
  | nil => exact h
  | cons op rest ih => exact ih (applyEdgeOp s op) (edgeSymmetric_applyEdgeOp s op h)

/-- Witness for C1: a concrete symmetric two-component store, pushed through
an add, an add naming an absent component, a self-referencing add, and a
remove. -/
theorem edge_symmetry_invariant_witness :
    EdgeSymmetric (applyEdgeOps
      [("A", mkComp "A" ["B"] [] []), ("B", mkComp "B" [] ["A"] [])]
      [EdgeOp.addRel "t1" "B" "A", EdgeOp.addRel "t2" "A" "Z",
       EdgeOp.addRel "t3" "A" "A", EdgeOp.removeRel "t4" "A" "B"]) :=
  edge_symmetry_invariant
    [("A", mkComp "A" ["B"] [] []), ("B", mkComp "B" [] ["A"] [])]
    [EdgeOp.addRel "t1" "B" "A", EdgeOp.addRel "t2" "A" "Z",
     EdgeOp.addRel "t3" "A" "A", EdgeOp.removeRel "t4" "A" "B"]
    (by decide)

/-- C2 counterexample: with a store holding only component "A",
addComponentRelationship("A", "B") does not fail and does not leave the
store unchanged — it records "B" as a dependency of "A" even though "B" is
absent; likewise addComponentRelationship("A", "A") installs a self-edge
instead of failing with SelfReference. -/
theorem addEdge_failure_atomicity_counterexample :
    (addComponentRelationship "t1" "A" "B" [("A", mkComp "A" [] [] [])] ≠
      [("A", mkComp "A" [] [] [])]) ∧
    hasDep (addComponentRelationship "t1" "A" "B" [("A", mkComp "A" [] [] [])]) "A" "B" = true ∧
    hasDep (addComponentRelationship "t1" "A" "A" [("A", mkComp "A" [] [] [])]) "A" "A" = true ∧
    hasDept (addComponentRelationship "t1" "A" "A" [("A", mkComp "A" [] [] [])]) "A" "A" = true := by
  decide

/-- C2 amended: addComponentRelationship signals no error at all.  Each side
of the relation is updated independently, guarded only by the presence of
its own endpoint: afterwards b is a dependency of a iff it already was or
(a, b) is exactly (dependentId, dependencyId) with the dependent present,
and symmetrically for dependents; a missing endpoint suppresses only its own
side (no NotFound, no SelfReference check, no atomicity across the two
sides). -/
theorem addEdge_never_fails_sides_guarded_individually (now dep dcy a b : String) (s : Store) :
    (hasDep (addComponentRelationship now dep dcy s) a b = true ↔
      (hasDep s a b = true ∨ (a = dep ∧ b = dcy ∧ present s dep = true))) ∧
    (hasDept (addComponentRelationship now dep dcy s) a b = true ↔
      (hasDept s a b = true ∨ (a = dcy ∧ b = dep ∧ present s dcy = true))) ∧
    present (addComponentRelationship now dep dcy s) a = present s a :=
  ⟨hasDep_addComponentRelationship now dep dcy a b s,
   hasDept_addComponentRelationship now dep dcy a b s,
   present_addComponentRelationship now dep dcy a s⟩

/-- C3 counterexample: deleting "B" from a store where "A" depends on "B"
removes "B" but leaves the dangling edge: "B" is still in "A".dependencies
afterwards. -/
theorem delete_leaves_dangling_edges_counterexample :
    present (deleteComponent "B"
      [("A", mkComp "A" ["B"] [] []), ("B", mkComp "B" [] ["A"] [])]) "B" = false ∧
    hasDep (deleteComponent "B"
      [("A", mkComp "A" ["B"] [] []), ("B", mkComp "B" [] ["A"] [])]) "A" "B" = true := by
  decide

/-- C3 amended: after deleteComponent(componentId) the component is absent
from the store, but every remaining component is left entirely unchanged —
in particular componentId is NOT stripped from the dependencies or
dependents lists of the other components, so dangling edges survive the deletion. -/
theorem delete_removes_component_but_not_edges (s : Store) (componentId : String) :
    present (deleteComponent componentId s) componentId = false ∧
    ∀ other, other ≠ componentId →
      findComp (deleteComponent componentId s) other = findComp s other := by
  constructor
  · unfold deleteComponent eraseComp present
    induction s with
    | nil => rfl
    | cons p rest ih =>
      obtain ⟨k, c⟩ := p
      by_cases hk : k = componentId
      · simp only [List.filter_cons]
        rw [if_neg (by simp [hk])]
        exact ih
      · simp only [List.filter_cons]
        rw [if_pos (by simp [hk])]
        simp only [findComp]
        rw [if_neg hk]
        exact ih
  · intro other hother
    unfold deleteComponent eraseComp
    induction s with
    | nil => rfl
    | cons p rest ih =>
      obtain ⟨k, c⟩ := p
      by_cases hk : k = componentId
      · simp only [List.filter_cons]
        rw [if_neg (by simp [hk])]
        simp only [findComp]
        have hko : ¬ k = other := fun hh => hother (hh ▸ hk)
        rw [if_neg hko]
        exact ih
      · simp only [List.filter_cons]
        rw [if_pos (by simp [hk])]
        simp only [findComp]
        by_cases hko : k = other
        · rw [if_pos hko, if_pos hko]
        · rw [if_neg hko, if_neg hko]
          exact ih

/-- Witness for C3 amended: deleting "B" concretely; the remaining
component "A" is looked up unchanged. -/
theorem delete_removes_component_but_not_edges_witness :
    present (deleteComponent "B"
      [("A", mkComp "A" ["B"] [] []), ("B", mkComp "B" [] ["A"] [])]) "B" = false ∧
    findComp (deleteComponent "B"
      [("A", mkComp "A" ["B"] [] []), ("B", mkComp "B" [] ["A"] [])]) "A" =
      findComp [("A", mkComp "A" ["B"] [] []), ("B", mkComp "B" [] ["A"] [])] "A" :=
  ⟨(delete_removes_component_but_not_edges
      [("A", mkComp "A" ["B"] [] []), ("B", mkComp "B" [] ["A"] [])] "B").1,
   (delete_removes_component_but_not_edges
      [("A", mkComp "A" ["B"] [] []), ("B", mkComp "B" [] ["A"] [])] "B").2 "A" (by decide)⟩

/-!  ## C8: frame property of updateComponentStatus  -/

/-- C8: updateComponentStatus modifies at most only the `status` and `updated_at` fields
of the named component: the lookup result for the named component is
exactly the old record with those two fields replaced (so identifier, name,
type, dependencies, dependents, active_alerts and metadata are untouched),
the lookup for every other identifier is unchanged, and when the component is
absent the whole store is returned unchanged rather than an error. -/
theorem updateComponentStatus_frame (now componentId : String) (st : ComponentStatus) (s : Store) :
    (present s componentId = false → updateComponentStatus now componentId st s = s) ∧
    findComp (updateComponentStatus now componentId st s) componentId =
      (findComp s componentId).map (fun c => { c with status := st, updated_at := now }) ∧
    ∀ other, other ≠ componentId →
      findComp (updateComponentStatus now componentId st s) other = findComp s other := by
  refine ⟨?_, ?_, ?_⟩
  · intro hp
    unfold updateComponentStatus
    cases hf : findComp s componentId with
    | none => rfl
    | some c => simp [present, hf] at hp
  · unfold updateComponentStatus
    cases hf : findComp s componentId with
    | none => simp [hf]
    | some c =>
      dsimp only
      rw [findComp_modifyComp_self, hf]
  · intro other hother
    unfold updateComponentStatus
    cases hf : findComp s componentId with
    | none => rfl
    | some c =>
      dsimp only
      rw [findComp_modifyComp_ne _ _ _ _ hother]

/-- Witness for C8: a status update on an absent id leaves a concrete store
untouched, and a status update on "A" leaves the record of "B" unchanged. -/
theorem updateComponentStatus_frame_witness :
    updateComponentStatus "t1" "Z" ComponentStatus.degraded [("A", mkComp "A" [] [] [])] =
      [("A", mkComp "A" [] [] [])] ∧
    findComp (updateComponentStatus "t1" "A" ComponentStatus.degraded
        [("A", mkComp "A" [] [] []), ("B", mkComp "B" [] [] [])]) "B" =
      findComp [("A", mkComp "A" [] [] []), ("B", mkComp "B" [] [] [])] "B" :=
  ⟨(updateComponentStatus_frame "t1" "Z" ComponentStatus.degraded
      [("A", mkComp "A" [] [] [])]).1 (by decide),
   (updateComponentStatus_frame "t1" "A" ComponentStatus.degraded
      [("A", mkComp "A" [] [] []), ("B", mkComp "B" [] [] [])]).2.2 "B" (by decide)⟩

/-!  ## C9: active-alert registration  -/

theorem addAlertToComponent_noop_mem (now componentId alertId : String) (s : Store)
    (c : InfrastructureComponent) (hf : findComp s componentId = some c)
    (hmem : alertId ∈ c.active_alerts) :
    addAlertToComponent now componentId alertId s = s := by
  unfold addAlertToComponent
  rw [hf]
  dsimp only
  rw [if_pos hmem]

theorem addAlertToComponent_noop_absent (now componentId alertId : String) (s : Store)
    (hf : findComp s componentId = none) :
    addAlertToComponent now componentId alertId s = s := by
  unfold addAlertToComponent
  rw [hf]

theorem findComp_addAlertToComponent_self (now componentId alertId : String) (s : Store) :
    findComp (addAlertToComponent now componentId alertId s) componentId =
      (findComp s componentId).map (fun c =>
        if alertId ∈ c.active_alerts then c
        else { c with active_alerts := c.active_alerts ++ [alertId], updated_at := now }) := by
  unfold addAlertToComponent
  cases hf : findComp s componentId with
  | none => simp [hf]
  | some c =>
    dsimp only
    by_cases hmem : alertId ∈ c.active_alerts
    · rw [if_pos hmem, hf]
      simp [hmem]
    · rw [if_neg hmem, findComp_modifyComp_self, hf]
      simp [hmem]

theorem findComp_removeAlertFromComponent_self (now componentId alertId : String) (s : Store) :
    findComp (removeAlertFromComponent now componentId alertId s) componentId =
      (findComp s componentId).map (fun c =>
        { c with active_alerts := c.active_alerts.filter (fun id => id ≠ alertId),
                 updated_at := now }) := by
  unfold removeAlertFromComponent
  cases hf : findComp s componentId with
  | none => simp [hf]
  | some c =>
    dsimp only
    rw [findComp_modifyComp_self, hf]

/-- C9: registering the same alert on the same component twice produces
exactly the state of registering it once (the second call is a no-op, so no
duplicate ever enters active_alerts, whatever wall-clock strings the two
calls read), and removeAlertFromComponent removes every occurrence of the
alert id from the active-alert list of the component. -/
theorem alert_registration_idempotent_removal_complete (now1 now2 componentId alertId : String) (s : Store) :
    addAlertToComponent now2 componentId alertId (addAlertToComponent now1 componentId alertId s) =
      addAlertToComponent now1 componentId alertId s ∧
    activeAlertCount (removeAlertFromComponent now1 componentId alertId s) componentId alertId = 0 := by
  constructor
  · cases hf : findComp s componentId with
    | none =>
      rw [addAlertToComponent_noop_absent now1 componentId alertId s hf]
      exact addAlertToComponent_noop_absent now2 componentId alertId s hf
    | some c =>
      by_cases hmem : alertId ∈ c.active_alerts
      · rw [addAlertToComponent_noop_mem now1 componentId alertId s c hf hmem]
        exact addAlertToComponent_noop_mem now2 componentId alertId s c hf hmem
      · refine addAlertToComponent_noop_mem now2 componentId alertId _
          { c with active_alerts := c.active_alerts ++ [alertId], updated_at := now1 } ?_ ?_
        · rw [findComp_addAlertToComponent_self, hf]
          dsimp only [Option.map]
          rw [if_neg hmem]
        · simp
  · unfold activeAlertCount
    rw [findComp_removeAlertFromComponent_self]
    cases hf : findComp s componentId with
    | none => rfl
    | some c =>
      dsimp only [Option.map]
      simp [List.count_eq_zero, List.mem_filter]

/-!  ## Lemmas about updateAlertStatus  -/

theorem applyAlertStatusUpdate_alert_id (st : AlertStatus) (notes : Option String) (now : String) (a : Alert) :
    (applyAlertStatusUpdate st notes now a).alert_id = a.alert_id := by
  unfold applyAlertStatusUpdate
  cases notes with
  | none =>
    dsimp only
    split <;> rfl
  | some n =>
    dsimp only
    by_cases hn : n = ""
    · rw [if_pos hn]
      split <;> rfl
    · rw [if_neg hn]
      split <;> rfl

theorem applyAlertStatusUpdate_status (st : AlertStatus) (notes : Option String) (now : String) (a : Alert) :
    (applyAlertStatusUpdate st notes now a).status = st := by
  unfold applyAlertStatusUpdate
  cases notes with
  | none =>
    dsimp only
    split <;> rfl
  | some n =>
    dsimp only
    by_cases hn : n = ""
    · rw [if_pos hn]
      split <;> rfl
    · rw [if_neg hn]
      split <;> rfl

theorem applyAlertStatusUpdate_history (st : AlertStatus) (notes : Option String) (now : String) (a : Alert) :
    (applyAlertStatusUpdate st notes now a).update_history = a.update_history := by
  unfold applyAlertStatusUpdate
  cases notes with
  | none =>
    dsimp only
    split <;> rfl
  | some n =>
    dsimp only
    by_cases hn : n = ""
    · rw [if_pos hn]
      split <;> rfl
    · rw [if_neg hn]
      split <;> rfl

theorem applyAlertStatusUpdate_resolution_time (st : AlertStatus) (notes : Option String) (now : String) (a : Alert) :
    (applyAlertStatusUpdate st notes now a).resolution_time =
      (if st = AlertStatus.resolved ∧ strTruthy a.resolution_time = false then some now
       else a.resolution_time) := by
  unfold applyAlertStatusUpdate
  cases notes with
  | none =>
    dsimp only
    split <;> rfl
  | some n =>
    dsimp only
    by_cases hn : n = ""
    · rw [if_pos hn]
      split <;> rfl
    · rw [if_neg hn]
      split <;> rfl

theorem findAlert_updateFirstAlert_self (alerts : List Alert) (alertId : String) (f : Alert → Alert)
    (hid : ∀ a, (f a).alert_id = a.alert_id) :
    findAlert (updateFirstAlert alerts alertId f) alertId = (findAlert alerts alertId).map f := by
  induction alerts with
  | nil => rfl
  | cons a rest ih =>
    by_cases ha : a.alert_id = alertId
    · simp only [updateFirstAlert]
      rw [if_pos ha]
      simp only [findAlert]
      rw [if_pos (by rw [hid a]; exact ha), if_pos ha]
      rfl
    · simp only [updateFirstAlert]
      rw [if_neg ha]
      simp only [findAlert]
      rw [if_neg ha, if_neg ha]
      exact ih

theorem findAlert_updateFirstAlert_ne (alerts : List Alert) (alertId other : String) (f : Alert → Alert)
    (hid : ∀ a, (f a).alert_id = a.alert_id) (hother : other ≠ alertId) :
    findAlert (updateFirstAlert alerts alertId f) other = findAlert alerts other := by
  induction alerts with
  | nil => rfl
  | cons a rest ih =>
    by_cases ha : a.alert_id = alertId
    · have hao : ¬ a.alert_id = other := fun hh => hother (by rw [← hh]; exact ha)
      simp only [updateFirstAlert]
      rw [if_pos ha]
      simp only [findAlert]
      rw [if_neg (by rw [hid a]; exact hao), if_neg hao]
    · simp only [updateFirstAlert]
      rw [if_neg ha]
      simp only [findAlert]
      by_cases hao : a.alert_id = other
      · rw [if_pos hao, if_pos hao]
      · rw [if_neg hao, if_neg hao]
        exact ih

theorem map_field_updateFirstAlert {β : Type} (g : Alert → β) (alerts : List Alert)
    (alertId : String) (f : Alert → Alert) (hg : ∀ a, g (f a) = g a) :
    (updateFirstAlert alerts alertId f).map g = alerts.map g := by
  induction alerts with
  | nil => rfl
  | cons a rest ih =>
    by_cases ha : a.alert_id = alertId
    · simp only [updateFirstAlert]
      rw [if_pos ha]
      simp only [List.map_cons]
      rw [hg a]
    · simp only [updateFirstAlert]
      rw [if_neg ha]
      simp only [List.map_cons]
      rw [ih]

/-!  ## C4: no transition-legality check  -/

/-- C4 counterexample: the backward transition acknowledged → new does not
fail with InvalidTransition — updateAlertStatus applies it, changing the
status of the alert to new. -/
theorem invalid_transition_not_rejected_counterexample :
    updateAlertStatus "a1" AlertStatus.new none "t1"
        [mkAlert "a1" AlertStatus.acknowledged none []] =
      [mkAlert "a1" AlertStatus.new none []] ∧
    (findAlert (updateAlertStatus "a1" AlertStatus.new none "t1"
        [mkAlert "a1" AlertStatus.acknowledged none []]) "a1").map Alert.status =
      some AlertStatus.new := by
  decide

/-- C4 amended: updateAlertStatus performs no legality check at all — every
requested status, including backward transitions such as acknowledged → new
or closed → new, is written unconditionally onto the found alert (there is
no InvalidTransition error in the reducer), while the update
history of the alert is left untouched. -/
theorem updateAlertStatus_no_transition_check (alertId : String) (st : AlertStatus)
    (notes : Option String) (now : String) (alerts : List Alert) (a : Alert)
    (hf : findAlert alerts alertId = some a) :
    findAlert (updateAlertStatus alertId st notes now alerts) alertId =
      some (applyAlertStatusUpdate st notes now a) ∧
    (applyAlertStatusUpdate st notes now a).status = st ∧
    (applyAlertStatusUpdate st notes now a).update_history = a.update_history := by
  refine ⟨?_, applyAlertStatusUpdate_status st notes now a,
    applyAlertStatusUpdate_history st notes now a⟩
  unfold updateAlertStatus
  rw [findAlert_updateFirstAlert_self alerts alertId _
    (fun x => applyAlertStatusUpdate_alert_id st notes now x), hf]
  rfl

/-- Witness for C4 amended: the acknowledged alert "a1" concretely receives
status new with its history intact. -/
theorem updateAlertStatus_no_transition_check_witness :
    findAlert (updateAlertStatus "a1" AlertStatus.new none "t1"
        [mkAlert "a1" AlertStatus.acknowledged none []]) "a1" =
      some (applyAlertStatusUpdate AlertStatus.new none "t1"
        (mkAlert "a1" AlertStatus.acknowledged none [])) ∧
    (applyAlertStatusUpdate AlertStatus.new none "t1"
        (mkAlert "a1" AlertStatus.acknowledged none [])).status = AlertStatus.new ∧
    (applyAlertStatusUpdate AlertStatus.new none "t1"
        (mkAlert "a1" AlertStatus.acknowledged none [])).update_history =
      (mkAlert "a1" AlertStatus.acknowledged none []).update_history :=
  updateAlertStatus_no_transition_check "a1" AlertStatus.new none "t1"
    [mkAlert "a1" AlertStatus.acknowledged none []]
    (mkAlert "a1" AlertStatus.acknowledged none []) (by decide)

/-!  ## C5: resolution_time is write-once  -/

theorem resolution_time_preserved_step (alertId targetId : String) (st : AlertStatus)
    (notes : Option String) (now : String) (alerts : List Alert) (a : Alert) (t : String)
    (hf : findAlert alerts alertId = some a) (hrt : a.resolution_time = some t) (ht : t ≠ "") :
    ∃ a2, findAlert (updateAlertStatus targetId st notes now alerts) alertId = some a2 ∧
      a2.resolution_time = some t := by
  by_cases hid : alertId = targetId
  · subst hid
    refine ⟨applyAlertStatusUpdate st notes now a, ?_, ?_⟩
    · unfold updateAlertStatus
      rw [findAlert_updateFirstAlert_self alerts alertId _
        (fun x => applyAlertStatusUpdate_alert_id st notes now x), hf]
      rfl
    · have hcond : ¬ (st = AlertStatus.resolved ∧ strTruthy a.resolution_time = false) := by
        rintro ⟨h1, h2⟩
        rw [hrt] at h2
        simp [strTruthy, ht] at h2
      rw [applyAlertStatusUpdate_resolution_time, if_neg hcond]
      exact hrt
  · refine ⟨a, ?_, hrt⟩
    unfold updateAlertStatus
    rw [findAlert_updateFirstAlert_ne alerts targetId alertId _
      (fun x => applyAlertStatusUpdate_alert_id st notes now x) hid]
    exact hf

theorem resolution_time_preserved_ops (alertId : String) (ops : List AlertStatusOp)
    (alerts : List Alert) (a : Alert) (t : String)
    (hf : findAlert alerts alertId = some a) (hrt : a.resolution_time = some t) (ht : t ≠ "") :
    ∃ a2, findAlert (applyAlertStatusOps alerts ops) alertId = some a2 ∧
      a2.resolution_time = some t := by
  induction ops generalizing alerts a with
  | nil => exact ⟨a, hf, hrt⟩
  | cons op rest ih =>
    obtain ⟨a2, hf2, hrt2⟩ := resolution_time_preserved_step alertId op.alertId op.status
      op.notes op.now alerts a t hf hrt ht
    exact ih (updateAlertStatus op.alertId op.status op.notes op.now alerts) a2 hf2 hrt2

theorem resolution_time_first_set (alertId : String) (notes : Option String) (now : String)
    (alerts : List Alert) (a : Alert)
    (hf : findAlert alerts alertId = some a) (hrt : strTruthy a.resolution_time = false) :
    ∃ a2, findAlert (updateAlertStatus alertId AlertStatus.resolved notes now alerts) alertId =
        some a2 ∧ a2.resolution_time = some now := by
  refine ⟨applyAlertStatusUpdate AlertStatus.resolved notes now a, ?_, ?_⟩
  · unfold updateAlertStatus
    rw [findAlert_updateFirstAlert_self alerts alertId _
      (fun x => applyAlertStatusUpdate_alert_id AlertStatus.resolved notes now x), hf]
    rfl
  · rw [applyAlertStatusUpdate_resolution_time, if_pos ⟨rfl, hrt⟩]

/-- C5: the first updateAlertStatus that sets the status of an alert to resolved
assigns resolution_time (to the wall-clock string read at that moment), and
once an alert carries a set (truthy, i.e. non-empty) resolution_time, no
later sequence of updateAlertStatus operations — resolving again, closing,
or anything else, on this or any other alert id — ever changes it. -/
theorem resolution_time_write_once (alertId : String) (notes : Option String) (now : String)
    (ops : List AlertStatusOp) (alerts : List Alert) (a : Alert) (t : String)
    (hf : findAlert alerts alertId = some a) :
    (strTruthy a.resolution_time = false →
      ∃ a2, findAlert (updateAlertStatus alertId AlertStatus.resolved notes now alerts) alertId =
          some a2 ∧ a2.resolution_time = some now) ∧
    (a.resolution_time = some t → t ≠ "" →
      ∃ a2, findAlert (applyAlertStatusOps alerts ops) alertId = some a2 ∧
        a2.resolution_time = some t) :=
  ⟨fun hrt => resolution_time_first_set alertId notes now alerts a hf hrt,
   fun hrt ht => resolution_time_preserved_ops alertId ops alerts a t hf hrt ht⟩

/-- Witness for C5: resolving "a1" stamps resolution_time "t1"; re-resolving
and closing an alert already stamped "t1" leaves the stamp intact. -/
theorem resolution_time_write_once_witness :
    (∃ a2, findAlert (updateAlertStatus "a1" AlertStatus.resolved none "t1"
        [mkAlert "a1" AlertStatus.in_progress none []]) "a1" = some a2 ∧
      a2.resolution_time = some "t1") ∧
    (∃ a2, findAlert (applyAlertStatusOps [mkAlert "a1" AlertStatus.resolved (some "t1") []]
        [AlertStatusOp.mk "a1" AlertStatus.resolved none "t9",
         AlertStatusOp.mk "a1" AlertStatus.closed none "t10"]) "a1" = some a2 ∧
      a2.resolution_time = some "t1") :=
  ⟨(resolution_time_write_once "a1" none "t1" []
      [mkAlert "a1" AlertStatus.in_progress none []]
      (mkAlert "a1" AlertStatus.in_progress none []) "t1" (by decide)).1 (by decide),
   (resolution_time_write_once "a1" none "t0"
      [AlertStatusOp.mk "a1" AlertStatus.resolved none "t9",
       AlertStatusOp.mk "a1" AlertStatus.closed none "t10"]
      [mkAlert "a1" AlertStatus.resolved (some "t1") []]
      (mkAlert "a1" AlertStatus.resolved (some "t1") []) "t1" (by decide)).2
      (by decide) (by decide)⟩

/-!  ## C6: update history untouched  -/

/-- C6 counterexample: a successful transition new → acknowledged appends
nothing to the update history of the alert — it is still empty afterwards, not
one entry long. -/
theorem transition_appends_no_history_counterexample :
    (updateAlertStatus "a1" AlertStatus.acknowledged none "t1"
        [mkAlert "a1" AlertStatus.new none []]).map Alert.update_history = [[]] ∧
    (findAlert (updateAlertStatus "a1" AlertStatus.acknowledged none "t1"
        [mkAlert "a1" AlertStatus.new none []]) "a1").map Alert.status =
      some AlertStatus.acknowledged := by
  decide

/-- C6 amended: updateAlertStatus never touches update_history — no entry
is appended on a successful transition, and no existing entry is ever
removed or truncated (the history of every alert is preserved verbatim). -/
theorem updateAlertStatus_preserves_history (alertId : String) (st : AlertStatus)
    (notes : Option String) (now : String) (alerts : List Alert) :
    (updateAlertStatus alertId st notes now alerts).map Alert.update_history =
      alerts.map Alert.update_history :=
  map_field_updateFirstAlert Alert.update_history alerts alertId _
    (fun a => applyAlertStatusUpdate_history st notes now a)

/-!  ## C7: default risk value for unknown time slots  -/

/-- C7 counterexample: with no entry for (Monday, 10:00-12:00) the prepared
cell carries value 0.5, while the same slot marked medium carries 0.6 —
the missing-slot default is NOT the medium value. -/
theorem unknown_slot_default_counterexample :
    (prepareCalendarData (some [])).head? =
      some (CalendarCell.mk "Monday" "10:00-12:00" (1/2)) ∧
    (prepareCalendarData
        (some [("Monday", [OptimalWindow.mk "10:00-12:00" "medium"])])).head? =
      some (CalendarCell.mk "Monday" "10:00-12:00" (6/10)) ∧
    (1/2 : ℚ) ≠ 6/10 :=
  ⟨rfl, rfl, by norm_num⟩

/-- C7 amended: prepareCalendarData assigns a missing (day, time-slot)
entry the value 0.5, which is not the 0.6 given to a slot whose risk_level
is medium — it sits strictly between the low (0.3) and medium (0.6)
values. -/
theorem unknown_slot_defaults_to_half (ow : OptimalWindows) (day time : String) :
    prepareCalendarData (some ow) =
      calendarDays.flatMap (fun d => calendarTimeSlots.map (fun tm =>
        CalendarCell.mk d tm (cellValue ow d tm))) ∧
    (slotLookup ow day time = none → cellValue ow day time = 1/2) ∧
    (∀ slot, slotLookup ow day time = some slot → slot.risk_level = "medium" →
      cellValue ow day time = 6/10) ∧
    ((3:ℚ)/10 < 1/2 ∧ (1:ℚ)/2 < 6/10) := by
  refine ⟨rfl, ?_, ?_, by norm_num⟩
  · intro h
    unfold cellValue
    rw [h]
  · intro slot h hm
    unfold cellValue
    rw [h]
    dsimp only
    rw [hm]
    rw [if_neg (by decide), if_pos rfl]

/-- Witness for C7 amended: the Monday morning slot evaluated with an empty
calendar (0.5) and with a medium entry (0.6). -/
theorem unknown_slot_defaults_to_half_witness :
    cellValue [] "Monday" "10:00-12:00" = 1/2 ∧
    cellValue [("Monday", [OptimalWindow.mk "10:00-12:00" "medium"])]
      "Monday" "10:00-12:00" = 6/10 :=
  ⟨(unknown_slot_defaults_to_half [] "Monday" "10:00-12:00").2.1 (by decide),
   (unknown_slot_defaults_to_half [("Monday", [OptimalWindow.mk "10:00-12:00" "medium"])]
      "Monday" "10:00-12:00").2.2.1
      (OptimalWindow.mk "10:00-12:00" "medium") (by decide) (by decide)⟩

/-!  ## C10: bounded notification list  -/

theorem addNotification_length_le (payload : NotificationPayload) (id timestamp : String)
    (notifications : List Notification) :
    (addNotification payload id timestamp notifications).length ≤ 50 := by
  unfold addNotification
  dsimp only
  by_cases hlen :
    (Notification.mk id payload.message payload.type timestamp false :: notifications).length > 50
  · rw [if_pos hlen, List.length_take]
    exact Nat.min_le_left _ _
  · rw [if_neg hlen]
    exact Nat.not_lt.mp hlen

theorem addNotification_head (payload : NotificationPayload) (id timestamp : String)
    (notifications : List Notification) :
    (addNotification payload id timestamp notifications).head? =
      some (Notification.mk id payload.message payload.type timestamp false) := by
  unfold addNotification
  dsimp only
  by_cases hlen :
    (Notification.mk id payload.message payload.type timestamp false :: notifications).length > 50
  · rw [if_pos hlen]
    rw [show (50 : Nat) = 49 + 1 from rfl, List.take_succ_cons]
    rfl
  · rw [if_neg hlen]
    rfl

theorem applyNotificationOps_length_le (ops : List NotificationOp) (l : List Notification)
    (h : l.length ≤ 50) : (applyNotificationOps ops l).length ≤ 50 := by
  induction ops generalizing l with
  | nil => exact h
  | cons op rest ih =>
    exact ih (addNotification op.payload op.id op.timestamp l)
      (addNotification_length_le op.payload op.id op.timestamp l)

/-- C10: starting from a notification list of length at most 50,
addNotification produces a list of length at most 50 whose head is the new
notification, freshly created and unread (read = false); consequently any
sequence of addNotification operations starting from the initial (empty)
list keeps the list within 50 entries. -/
theorem notification_list_bounded (payload : NotificationPayload) (id timestamp : String)
    (notifications : List Notification) (ops : List NotificationOp)
    (_h : notifications.length ≤ 50) :
    (addNotification payload id timestamp notifications).length ≤ 50 ∧
    (addNotification payload id timestamp notifications).head? =
      some (Notification.mk id payload.message payload.type timestamp false) ∧
    (applyNotificationOps ops []).length ≤ 50 :=
  ⟨addNotification_length_le payload id timestamp notifications,
   addNotification_head payload id timestamp notifications,
   applyNotificationOps_length_le ops [] (by simp)⟩

/-- Witness for C10: one concrete notification added to the empty list. -/
theorem notification_list_bounded_witness :
    (addNotification (NotificationPayload.mk "m" "info") "n1" "ts" []).length ≤ 50 ∧
    (addNotification (NotificationPayload.mk "m" "info") "n1" "ts" []).head? =
      some (Notification.mk "n1" "m" "info" "ts" false) ∧
    (applyNotificationOps
      [NotificationOp.mk (NotificationPayload.mk "m" "info") "n1" "ts"] []).length ≤ 50 :=
  notification_list_bounded (NotificationPayload.mk "m" "info") "n1" "ts" []
    [NotificationOp.mk (NotificationPayload.mk "m" "info") "n1" "ts"] (by decide)

end InfraDash
